import Mathlib

/-
Shallow embedding of the docker-kicker web application (app.js and its
second variant shipped in the same repository).  JavaScript objects are
modelled as ordered association lists, the module-level `runningMap`
(a JS `Map`) as an ordered association list from configuration names to
instance-name arrays, and fallible validation as `Except String`.
External collaborators (the container runtime, `crypto.randomUUID`,
`decodeURIComponent`) appear as explicit parameters.
-/

namespace DockerKicker

/-- Value stored under a key of a `createOptions` JSON object.  Only the
shapes the program inspects are distinguished: strings (for example the
`name` key) and arrays of strings (the `env` key). -/
inductive JVal where
  | str : String → JVal
  | arr : List String → JVal
deriving DecidableEq

/-- A character counts as alphanumeric when it is an ASCII letter or an
ASCII digit.  This is the complement of the character class of the
JavaScript regular expression `/[\W_]+/` (non-word characters together
with the underscore). -/
def isAlnumChar (c : Char) : Bool := c.isAlpha || c.isDigit

/-- Core of `cleanConfigName`: the global regex replacement of every
maximal run of non-alphanumeric characters by a single dash, written as
a left-to-right scan.  The flag records whether the scan is currently
inside a run that has already emitted its dash. -/
def cleanAux : Bool → List Char → List Char
  | _, [] => []
  | inRun, c :: rest =>
    if isAlnumChar c then c :: cleanAux false rest
    else if inRun then cleanAux true rest
    else '-' :: cleanAux true rest

/-- Embeds `cleanConfigName` (app.js line 108): replace every maximal run
of characters matching `[\W_]+` with a single dash. -/
def cleanConfigName (name : String) : String := String.mk (cleanAux false name.data)

/-- Embeds the fields of a constructed `ConfigEntry` after the defaulting
performed by the constructor (app.js lines 31 to 39).  The field set is
the union of the two variants of the file (the second variant adds
`queryParamsToEnv`).  `createOptions` is a JS object, modelled as an
ordered association list with pairwise distinct keys. -/
structure ConfigEntry where
  rawName : String
  key : String
  image : String
  queryParamsToEnv : List String
  allowFrom : List String
  cmd : List String
  createOptions : List (String × JVal)
  limit : Int
deriving DecidableEq

/-- The `name` getter of `ConfigEntry`: the raw name with all
non-alphanumeric characters replaced by dashes. -/
def ConfigEntry.name (e : ConfigEntry) : String := cleanConfigName e.rawName

/-- Raw configuration object as parsed from the JSON configuration list,
before the constructor applies defaults.  A missing or empty string field
is modelled as the empty string (both are falsy in JavaScript, and both
abort validation); fields whose absence changes behaviour beyond
falsiness are `Option`. -/
structure RawConf where
  name : String
  key : String
  image : String
  queryParamsToEnv : Option (List String)
  allowFrom : Option (List String)
  cmd : Option (List String)
  createOptions : Option (List (String × JVal))
  limit : Option Int
deriving DecidableEq

/-- Embeds the `ConfigEntry` constructor (app.js lines 31 to 39): each
field is the configured value when truthy, otherwise the documented
default.  For the numeric `limit`, `conf.limit || 1` yields `1` exactly
when the configured value is absent or the falsy number `0`. -/
def ConfigEntry.ofConf (conf : RawConf) : ConfigEntry where
  rawName := conf.name
  key := conf.key
  image := conf.image
  queryParamsToEnv := conf.queryParamsToEnv.getD []
  allowFrom := conf.allowFrom.getD ["127.0.0.1", "::1"]
  cmd := conf.cmd.getD []
  createOptions := conf.createOptions.getD []
  limit := match conf.limit with
    | none => 1
    | some n => if n = 0 then 1 else n

/-- Per-entry checks of `tryValidateConfig` (app.js lines 116 to 129).
The JS code throws message strings that wrap the entry name in single
quotes; the quotes are omitted here, which no claim depends on.  The
sub-50-character key warning is a log line with no control effect and is
not modelled. -/
def validateEntry (curr : ConfigEntry) : Except String Unit :=
  if curr.name = "" then Except.error "Missing config name."
  else if curr.key = "" then Except.error ("Missing key for config " ++ curr.name)
  else if curr.image = "" then Except.error ("Missing image for config " ++ curr.name)
  else Except.ok ()

/-- The `configArray.forEach` loop of `tryValidateConfig`: the first
throwing entry aborts the whole validation. -/
def checkEntries : List ConfigEntry → Except String Unit
  | [] => Except.ok ()
  | c :: rest =>
    match validateEntry c with
    | Except.error e => Except.error e
    | Except.ok _ => checkEntries rest

/-- Embeds `tryValidateConfig` of src/app.js (lines 115 to 138): per-entry
field checks, then uniqueness of the cleaned names via `new Set`
deduplication.  This variant performs no key-uniqueness check. -/
def tryValidateConfig (configArray : List ConfigEntry) : Except String Unit :=
  match checkEntries configArray with
  | Except.error e => Except.error e
  | Except.ok _ =>
    let allNames := configArray.map ConfigEntry.name
    if allNames.dedup.length ≠ allNames.length then
      Except.error "Configuration entry names must be unique."
    else Except.ok ()

/-- Embeds `tryValidateConfig` of the second app.js variant in this
repository, which additionally checks global uniqueness of the keys. -/
def tryValidateConfigV2 (configArray : List ConfigEntry) : Except String Unit :=
  match checkEntries configArray with
  | Except.error e => Except.error e
  | Except.ok _ =>
    let allNames := configArray.map ConfigEntry.name
    if allNames.dedup.length ≠ allNames.length then
      Except.error "Configuration entry names must be unique."
    else
      let allKeys := configArray.map ConfigEntry.key
      if allKeys.dedup.length ≠ allKeys.length then
        Except.error "Configuration entry keys must be unique."
      else Except.ok ()

/-- The module-level `runningMap`, a JS `Map` from cleaned configuration
name to the array of currently tracked instance names, modelled as an
ordered association list (insertion order, pairwise distinct keys). -/
abbrev RunningMap := List (String × List String)

/-- `Map.get`: the value under the key, if present. -/
def mapFind : RunningMap → String → Option (List String)
  | [], _ => none
  | (k', v) :: t, k => if k' = k then some v else mapFind t k

/-- `Map.set`: replace the value under an existing key in place, or append
a new key-value pair. -/
def mapSet : RunningMap → String → List String → RunningMap
  | [], k, v => [(k, v)]
  | (k', v') :: t, k, v =>
    if k' = k then (k, v) :: t else (k', v') :: mapSet t k v

/-- The array tracked under a configuration name, the empty array when the
key is absent. -/
def bucketOf (m : RunningMap) (k : String) : List String := (mapFind m k).getD []

/-- Embeds `genNewInstanceName` (app.js lines 155 to 159); `uniq` stands
for the `crypto.randomUUID()` result. -/
def genNewInstanceName (configEntry : ConfigEntry) (uniq : String) : String :=
  configEntry.name ++ "_" ++ uniq

/-- Embeds `tryTrackNewRunningInstance` (app.js lines 161 to 173): reject
when the bucket under the cleaned name already has at least `limit`
elements, otherwise push the instance name (creating the bucket when the
key is absent) and admit.  The JS mutation of `runningMap` is returned as
the second component. -/
def tryTrackNewRunningInstance (m : RunningMap) (config : ConfigEntry)
    (instanceName : String) : Bool × RunningMap :=
  match mapFind m config.name with
  | some alreadyRunning =>
    if (alreadyRunning.length : Int) ≥ config.limit then (false, m)
    else (true, mapSet m config.name (alreadyRunning ++ [instanceName]))
  | none => (true, mapSet m config.name [instanceName])

/-- `Array.prototype.indexOf`: index of the first occurrence, `-1` when
absent. -/
def findIndex (x : String) : List String → Option Nat
  | [] => none
  | y :: t => if y = x then some 0 else (findIndex x t).map (· + 1)

/-- `Array.prototype.indexOf` with the JS `-1` convention for absence. -/
def jsIndexOf (l : List String) (x : String) : Int :=
  match findIndex x l with
  | some i => (i : Int)
  | none => -1

/-- `Array.prototype.splice(start)` called with a single argument: remove
every element from the clamped start index to the end of the array,
keeping the elements before it.  A negative start counts from the end
(clamped at zero). -/
def spliceTruncate (l : List String) (start : Int) : List String :=
  if start < 0 then l.take ((l.length : Int) + start).toNat
  else l.take start.toNat

/-- Embeds `untrackRunningInstance` (app.js lines 175 to 180): when the
bucket under the cleaned name exists and is non-empty, run
`alreadyRunning.splice(alreadyRunning.indexOf(instanceName))`.  Because
`splice` is given no delete count it truncates the array at the found
index, and at index `-1` (the last element) when the name is absent. -/
def untrackRunningInstance (m : RunningMap) (config : ConfigEntry)
    (instanceName : String) : RunningMap :=
  match mapFind m config.name with
  | none => m
  | some alreadyRunning =>
    if alreadyRunning.length = 0 then m
    else
      mapSet m config.name
        (spliceTruncate alreadyRunning (jsIndexOf alreadyRunning instanceName))

/-- The JS `key in query` membership test on the request query object
(own properties; the query object is an association list with pairwise
distinct keys). -/
def queryHas (query : List (String × String)) (k : String) : Bool :=
  query.any (fun p => p.1 == k)

/-- The JS `query[key]` property read, as a total function (only invoked
under a `queryHas` guard in the program). -/
def queryGet (query : List (String × String)) (k : String) : String :=
  ((query.find? (fun p => p.1 == k)).map Prod.snd).getD ""

/-- Embeds `extractAllowedQueryParams` of the second app.js variant:
filter the allowlist `queryParamsToEnv` down to the parameters present in
the query, then format each as `KEY=decodedValue`.  `decode` stands for
the JS builtin `decodeURIComponent`. -/
def extractAllowedQueryParams (decode : String → String) (config : ConfigEntry)
    (query : List (String × String)) : List String :=
  (config.queryParamsToEnv.filter (fun key => queryHas query key)).map
    (fun key => key ++ "=" ++ decode (queryGet query key))

/-- JS object property read. -/
def objGet : List (String × JVal) → String → Option JVal
  | [], _ => none
  | (k', v) :: t, k => if k' = k then some v else objGet t k

/-- JS object property assignment: overwrite the value of an existing key
in place, otherwise append the new key. -/
def objAssign : List (String × JVal) → String → JVal → List (String × JVal)
  | [], k, v => [(k, v)]
  | (k', v') :: t, k, v =>
    if k' = k then (k, v) :: t else (k', v') :: objAssign t k v

/-- The `env` array configured under `createOptions`, via the optional
chain `createOptions?.env ?? []` of the second app.js variant (the
configured `env`, when present, is an array per the configuration
schema). -/
def getConfiguredEnv (opts : List (String × JVal)) : List String :=
  match objGet opts "env" with
  | some (JVal.arr l) => l
  | _ => []

/-- Embeds the query-to-environment block of the kick handler in the
second app.js variant: compute the allowlisted query environment entries,
concatenate them after the configured `env`, and write the result back
into the matched entry via `match.createOptions.env = env`.  The
surrounding `if (queryToEnvVars)` is always taken because a JS array is
truthy even when empty, and the `else` branch is unreachable because the
constructor defaults `createOptions` to an object. -/
def updateEntryEnv (decode : String → String) (e : ConfigEntry)
    (query : List (String × String)) : ConfigEntry :=
  let queryToEnvVars := extractAllowedQueryParams decode e query
  let env := getConfiguredEnv e.createOptions ++ queryToEnvVars
  { e with createOptions := objAssign e.createOptions "env" (JVal.arr env) }

/-- Embeds the container-creation options object literal of the kick
handler (app.js lines 215 to 218): start from an object holding the
generated name, then copy every configured `createOptions` property over
it in order, later assignments overwriting earlier ones, exactly as the
JS spread `\x7b name: genNewInstanceName(match), ...match.createOptions \x7d`
does. -/
def buildCreateOptions (generatedName : String)
    (opts : List (String × JVal)) : List (String × JVal) :=
  opts.foldl (fun acc p => objAssign acc p.1 p.2) [("name", JVal.str generatedName)]

/-- Test fixture: a valid entry with concurrency limit 2. -/
def svcEntry : ConfigEntry where
  rawName := "svc"
  key := "key-svc"
  image := "img/svc"
  queryParamsToEnv := []
  allowFrom := ["127.0.0.1", "::1"]
  cmd := []
  createOptions := []
  limit := 2

/-- Test fixture: a valid entry whose configured `createOptions` carries a
`name` key. -/
def fixedNameEntry : ConfigEntry where
  rawName := "svc2"
  key := "key-svc2"
  image := "img/svc2"
  queryParamsToEnv := []
  allowFrom := ["127.0.0.1", "::1"]
  cmd := []
  createOptions := [("name", JVal.str "fixed")]
  limit := 1

/-- Test fixture: a valid entry with a query-parameter allowlist and a
configured environment. -/
def queryEntry : ConfigEntry where
  rawName := "svc3"
  key := "key-svc3"
  image := "img/svc3"
  queryParamsToEnv := ["FOO"]
  allowFrom := ["127.0.0.1", "::1"]
  cmd := []
  createOptions := [("env", JVal.arr ["A=1"])]
  limit := 1

/-- Test fixture: two otherwise-valid entries sharing the same key but
with distinct names. -/
def dupKeyA : ConfigEntry where
  rawName := "a"
  key := "shared-key"
  image := "img/a"
  queryParamsToEnv := []
  allowFrom := ["127.0.0.1", "::1"]
  cmd := []
  createOptions := []
  limit := 1

/-- Test fixture: second entry of the duplicate-key pair. -/
def dupKeyB : ConfigEntry where
  rawName := "b"
  key := "shared-key"
  image := "img/b"
  queryParamsToEnv := []
  allowFrom := ["127.0.0.1", "::1"]
  cmd := []
  createOptions := []
  limit := 1

example : cleanConfigName "a b_c!d" = "a-b-c-d" := by decide
example : svcEntry.name = "svc" := by decide
example : tryTrackNewRunningInstance [] svcEntry "i1" = (true, [("svc", ["i1"])]) := by decide
example : untrackRunningInstance [("svc", ["a", "b"])] svcEntry "a" = [("svc", [])] := by decide
example : untrackRunningInstance [("svc", ["a"])] svcEntry "x" = [("svc", [])] := by decide
example : tryValidateConfig [dupKeyA, dupKeyB] = Except.ok () := rfl
example : tryValidateConfigV2 [dupKeyA, dupKeyB] =
    Except.error "Configuration entry keys must be unique." := rfl
example : objGet (buildCreateOptions "svc2_u123" fixedNameEntry.createOptions) "name" =
    some (JVal.str "fixed") := by decide
example : (updateEntryEnv id queryEntry [("FOO", "bar"), ("BAZ", "qux")]).createOptions =
    [("env", JVal.arr ["A=1", "FOO=bar"])] := by decide

/-- Sequence of admission attempts against one entry, starting from the
empty tracker: final tracker state together with the list of admission
decisions in order. -/
def admitSeq (cfg : ConfigEntry) (ids : List String) : RunningMap × List Bool :=
  ids.foldl
    (fun acc i =>
      let r := tryTrackNewRunningInstance acc.1 cfg i
      (r.2, acc.2 ++ [r.1]))
    ([], [])

/-- The head of the list, when it exists, is alphanumeric. -/
def headAl : List Char → Prop
  | [] => True
  | c :: _ => isAlnumChar c = true

lemma headAl_cleanAux_true (l : List Char) : headAl (cleanAux true l) := by
  induction l with
  | nil => trivial
  | cons c t ih =>
    cases hc : isAlnumChar c with
    | true => simp [cleanAux, hc, headAl]
    | false => simpa [cleanAux, hc] using ih

lemma cleanAux_true_eq_false (l : List Char) (h : headAl l) :
    cleanAux true l = cleanAux false l := by
  cases l with
  | nil => rfl
  | cons c t =>
    unfold headAl at h
    simp [cleanAux, h]

lemma cleanAux_idem (l : List Char) : ∀ b, cleanAux false (cleanAux b l) = cleanAux b l := by
  induction l with
  | nil => intro b; cases b <;> rfl
  | cons c t ih =>
    intro b
    cases hc : isAlnumChar c with
    | true => cases b <;> simp [cleanAux, hc, ih false]
    | false =>
      cases b with
      | true => simpa [cleanAux, hc] using ih true
      | false =>
        have h2 := cleanAux_true_eq_false (cleanAux true t) (headAl_cleanAux_true t)
        simp only [cleanAux, hc, Bool.false_eq_true, if_false,
          show isAlnumChar '-' = false from rfl, if_true]
        rw [h2, ih true]

/-- C8: `cleanConfigName` replaces every maximal run of characters that
are not ASCII letters or digits (underscore included) with a single dash
— this is the definition of `cleanAux` — and it is idempotent; in
particular it sends `"a b_c!d"` to `"a-b-c-d"`. -/
theorem c8_cleanConfigName_idempotent :
    (∀ s : String, cleanConfigName (cleanConfigName s) = cleanConfigName s) ∧
    cleanConfigName "a b_c!d" = "a-b-c-d" := by
  refine ⟨fun s => ?_, by decide⟩
  show String.mk (cleanAux false (cleanAux false s.data)) = String.mk (cleanAux false s.data)
  rw [cleanAux_idem s.data false]

lemma bucketOf_eq_of_find (m : RunningMap) (k : String) (l : List String)
    (h : mapFind m k = some l) : bucketOf m k = l := by
  simp [bucketOf, h]

/-- C1: with limit at least 1, `tryTrackNewRunningInstance` admits and
appends exactly when the bucket under the cleaned name holds fewer than
`limit` identifiers (creating the bucket on first admission), and rejects
leaving the tracker unchanged when the bucket holds `limit` or more; for
an entry with limit 2, of three admissions from the empty tracker the
first two are admitted and the third rejected, and after releasing one
admitted identifier a fourth admission succeeds. -/
theorem c1_tryTrackNewRunningInstance_admission
    (m : RunningMap) (cfg : ConfigEntry) (inst : String) (h1 : 1 ≤ cfg.limit)
    (cfg2 : ConfigEntry) (h2 : cfg2.limit = 2) (i1 i2 i3 i4 : String) :
    (((bucketOf m cfg.name).length : Int) < cfg.limit →
      tryTrackNewRunningInstance m cfg inst =
        (true, mapSet m cfg.name (bucketOf m cfg.name ++ [inst]))) ∧
    (cfg.limit ≤ ((bucketOf m cfg.name).length : Int) →
      tryTrackNewRunningInstance m cfg inst = (false, m)) ∧
    ((admitSeq cfg2 [i1, i2, i3]).2 = [true, true, false] ∧
      (tryTrackNewRunningInstance
        (untrackRunningInstance (admitSeq cfg2 [i1, i2, i3]).1 cfg2 i1)
        cfg2 i4).1 = true) := by
  refine ⟨?_, ?_, ?_⟩
  · intro hlt
    cases hf : mapFind m cfg.name with
    | none =>
      rw [show bucketOf m cfg.name = [] by simp [bucketOf, hf]]
      simp [tryTrackNewRunningInstance, hf]
    | some l =>
      rw [bucketOf_eq_of_find m cfg.name l hf] at hlt ⊢
      simp only [tryTrackNewRunningInstance, hf]
      rw [if_neg (by omega)]
  · intro hge
    cases hf : mapFind m cfg.name with
    | none =>
      rw [show bucketOf m cfg.name = [] by simp [bucketOf, hf]] at hge
      simp at hge
      omega
    | some l =>
      rw [bucketOf_eq_of_find m cfg.name l hf] at hge
      simp only [tryTrackNewRunningInstance, hf]
      rw [if_pos (by omega)]
  · constructor
    · simp [admitSeq, tryTrackNewRunningInstance, mapFind, mapSet, h2]
    · simp [admitSeq, tryTrackNewRunningInstance, untrackRunningInstance,
        mapFind, mapSet, jsIndexOf, findIndex, spliceTruncate, h2]

/-- Witness for C1 at the concrete entry `svcEntry` (limit 2), empty
tracker and concrete identifiers. -/
theorem c1_witness :
    (((bucketOf [] svcEntry.name).length : Int) < svcEntry.limit →
      tryTrackNewRunningInstance [] svcEntry "x" =
        (true, mapSet [] svcEntry.name (bucketOf [] svcEntry.name ++ ["x"]))) ∧
    (svcEntry.limit ≤ ((bucketOf [] svcEntry.name).length : Int) →
      tryTrackNewRunningInstance [] svcEntry "x" = (false, [])) ∧
    ((admitSeq svcEntry ["a", "b", "c"]).2 = [true, true, false] ∧
      (tryTrackNewRunningInstance
        (untrackRunningInstance (admitSeq svcEntry ["a", "b", "c"]).1 svcEntry "a")
        svcEntry "d").1 = true) :=
  c1_tryTrackNewRunningInstance_admission [] svcEntry "x" (by decide)
    svcEntry (by decide) "a" "b" "c" "d"

/-- One call against the tracker: an admission attempt
(`tryTrackNewRunningInstance`) or a release (`untrackRunningInstance`),
each carrying the configuration entry it is made for. -/
inductive TrackOp where
  | admitOp (entry : ConfigEntry) (instanceName : String)
  | release (entry : ConfigEntry) (instanceName : String)
deriving DecidableEq

/-- The configuration entry a tracker call is made for. -/
def TrackOp.entry : TrackOp → ConfigEntry
  | .admitOp e _ => e
  | .release e _ => e

/-- Effect of one tracker call on the tracker state. -/
def applyTrackOp (m : RunningMap) : TrackOp → RunningMap
  | .admitOp e i => (tryTrackNewRunningInstance m e i).2
  | .release e i => untrackRunningInstance m e i

/-- Tracker state reached from the empty map by a sequence of calls. -/
def runTrackOps (ops : List TrackOp) : RunningMap := ops.foldl applyTrackOp []

/-- The limit associated to a configuration name by the first call of the
trace that mentions it (default 1 for unmentioned names). -/
def limitFor (ops : List TrackOp) (n : String) : Int :=
  match ops.find? (fun op => op.entry.name == n) with
  | some op => op.entry.limit
  | none => 1

lemma mapFind_mapSet (m : RunningMap) (k : String) (v : List String) (n : String) :
    mapFind (mapSet m k v) n = if k = n then some v else mapFind m n := by
  induction m with
  | nil => simp [mapSet, mapFind]
  | cons p t ih =>
    obtain ⟨k', v'⟩ := p
    by_cases hk : k' = k
    · subst hk
      by_cases hn : k' = n <;> simp [mapSet, mapFind, hn]
    · by_cases hn : k' = n
      · subst hn
        have : ¬ k = k' := fun h => hk h.symm
        simp [mapSet, mapFind, hk, this]
      · simp [mapSet, mapFind, hk, hn, ih]

lemma bucketOf_mapSet (m : RunningMap) (k : String) (v : List String) (n : String) :
    bucketOf (mapSet m k v) n = if k = n then v else bucketOf m n := by
  by_cases h : k = n <;> simp [bucketOf, mapFind_mapSet, h]

lemma length_untrack_le (m : RunningMap) (e : ConfigEntry) (i : String) (n : String) :
    (bucketOf (untrackRunningInstance m e i) n).length ≤ (bucketOf m n).length := by
  unfold untrackRunningInstance
  cases hf : mapFind m e.name with
  | none => exact le_refl _
  | some l =>
    by_cases hl : l.length = 0
    · simp [hl]
    · simp only [hl, if_false]
      rw [bucketOf_mapSet]
      by_cases hn : e.name = n
      · subst hn
        rw [if_pos rfl, bucketOf_eq_of_find m e.name l hf]
        unfold spliceTruncate
        by_cases hs : jsIndexOf l i < 0 <;>
          simp [hs, List.length_take]
      · simp [hn]

lemma length_tryTrack_le (m : RunningMap) (e : ConfigEntry) (i : String) (n : String)
    (B : Int) (h1 : 1 ≤ e.limit) (hB : e.name = n → e.limit ≤ B)
    (hm : ((bucketOf m n).length : Int) ≤ B) :
    ((bucketOf (tryTrackNewRunningInstance m e i).2 n).length : Int) ≤ B := by
  unfold tryTrackNewRunningInstance
  cases hf : mapFind m e.name with
  | none =>
    simp only
    rw [bucketOf_mapSet]
    by_cases hn : e.name = n
    · rw [if_pos hn]
      have := hB hn
      simp
      omega
    · rw [if_neg hn]; exact hm
  | some l =>
    by_cases hge : (l.length : Int) ≥ e.limit
    · simp only [hge, if_true]
      exact hm
    · simp only [hge, if_false]
      rw [bucketOf_mapSet]
      by_cases hn : e.name = n
      · rw [if_pos hn]
        have hl : bucketOf m n = l := by rw [← hn]; exact bucketOf_eq_of_find m e.name l hf
        have := hB hn
        rw [hl] at hm
        simp
        omega
      · rw [if_neg hn]; exact hm

lemma c2_aux (L : String → Int) (ops : List TrackOp) :
    ∀ (m : RunningMap),
      (∀ op ∈ ops, 1 ≤ op.entry.limit) →
      (∀ op ∈ ops, op.entry.limit = L op.entry.name) →
      (∀ n, ((bucketOf m n).length : Int) ≤ L n) →
      ∀ n, ((bucketOf (ops.foldl applyTrackOp m) n).length : Int) ≤ L n := by
  induction ops with
  | nil => intro m _ _ hm n; exact hm n
  | cons op rest ih =>
    intro m h1 h2 hm n
    simp only [List.foldl_cons]
    refine ih (applyTrackOp m op)
      (fun o ho => h1 o (List.mem_cons_of_mem _ ho))
      (fun o ho => h2 o (List.mem_cons_of_mem _ ho)) ?_ n
    intro n'
    cases op with
    | release e i =>
      calc ((bucketOf (applyTrackOp m (TrackOp.release e i)) n').length : Int)
          ≤ ((bucketOf m n').length : Int) := by
            exact_mod_cast length_untrack_le m e i n'
        _ ≤ L n' := hm n'
    | admitOp e i =>
      refine length_tryTrack_le m e i n' (L n')
        (h1 _ (List.mem_cons_self _ _)) (fun hn => ?_) (hm n')
      rw [← hn]
      exact le_of_eq (h2 _ (List.mem_cons_self _ _))

/-- C2: starting from the empty tracker, under any sequence of admission
and release calls in which every entry used has limit at least 1 and
entries with equal cleaned names carry equal limits (as the entries of a
validated configuration do), the number of identifiers tracked under any
used configuration name never exceeds that configuration entry limit. -/
theorem c2_tracker_never_exceeds_limit (ops : List TrackOp)
    (h1 : ∀ op ∈ ops, 1 ≤ op.entry.limit)
    (h2 : ∀ op ∈ ops, ∀ op2 ∈ ops,
      op.entry.name = op2.entry.name → op.entry.limit = op2.entry.limit) :
    ∀ op ∈ ops,
      ((bucketOf (runTrackOps ops) op.entry.name).length : Int) ≤ op.entry.limit := by
  intro op hop
  have hLim : ∀ o ∈ ops, o.entry.limit = limitFor ops o.entry.name := by
    intro o ho
    unfold limitFor
    cases hf : ops.find? (fun op' => op'.entry.name == o.entry.name) with
    | none =>
      exfalso
      have := List.find?_eq_none.mp hf o ho
      simp at this
    | some o2 =>
      have hmem := List.mem_of_find?_eq_some hf
      have hp : o2.entry.name = o.entry.name := by
        have := List.find?_some hf
        simpa using this
      exact h2 o ho o2 hmem hp.symm
  have hinit : ∀ n, ((bucketOf ([] : RunningMap) n).length : Int) ≤ limitFor ops n := by
    intro n
    unfold limitFor
    cases hf : ops.find? (fun op' => op'.entry.name == n) with
    | none => simp [bucketOf, mapFind]
    | some o2 =>
      have := h1 o2 (List.mem_of_find?_eq_some hf)
      simp only [bucketOf, mapFind, Option.getD_none, List.length_nil, Nat.cast_zero]
      omega
  have hfin := c2_aux (limitFor ops) ops [] h1 hLim hinit op.entry.name
  rw [hLim op hop]
  exact hfin

/-- Witness for C2 on a concrete five-call trace against `svcEntry`
(limit 2): three admissions, one release, one more admission. -/
theorem c2_witness :
    ((bucketOf
        (runTrackOps
          [TrackOp.admitOp svcEntry "a", TrackOp.admitOp svcEntry "b",
            TrackOp.admitOp svcEntry "c", TrackOp.release svcEntry "a",
            TrackOp.admitOp svcEntry "d"])
        (TrackOp.admitOp svcEntry "a").entry.name).length : Int) ≤
      (TrackOp.admitOp svcEntry "a").entry.limit :=
  c2_tracker_never_exceeds_limit
    [TrackOp.admitOp svcEntry "a", TrackOp.admitOp svcEntry "b",
      TrackOp.admitOp svcEntry "c", TrackOp.release svcEntry "a",
      TrackOp.admitOp svcEntry "d"]
    (by decide) (by decide) (TrackOp.admitOp svcEntry "a") (by decide)

/-- C3 (code bug): releasing the identifier `"a"` from the bucket
`["a", "b"]` does not remove only `"a"`; because `splice` is called
without a delete count, it truncates the bucket at the found index and
the still-running `"b"` loses its tracking slot as well. -/
theorem c3_untrack_removes_following_identifiers :
    "b" ∈ bucketOf [("svc", ["a", "b"])] "svc" ∧
    untrackRunningInstance [("svc", ["a", "b"])] svcEntry "a" = [("svc", [])] ∧
    "b" ∉ bucketOf (untrackRunningInstance [("svc", ["a", "b"])] svcEntry "a") "svc" := by
  decide

/-- C4 (code bug): releasing an identifier that is not tracked under the
name is not a no-op when the bucket is non-empty; `indexOf` returns `-1`
and `splice(-1)` removes the last tracked identifier. -/
theorem c4_untrack_absent_not_noop :
    "x" ∉ bucketOf [("svc", ["a"])] "svc" ∧
    untrackRunningInstance [("svc", ["a"])] svcEntry "x" = [("svc", [])] ∧
    untrackRunningInstance [("svc", ["a"])] svcEntry "x" ≠ [("svc", ["a"])] := by
  decide

/-- C5 (code bug): handling a kick request that carries an allowlisted
query parameter mutates the matched entry — the handler of the second
app.js variant writes the merged environment back into
`match.createOptions.env` — and a second request then sees, and further
extends, the environment derived from the first request. -/
theorem c5_handler_mutates_matched_entry :
    (updateEntryEnv id queryEntry [("FOO", "bar")]).createOptions =
      [("env", JVal.arr ["A=1", "FOO=bar"])] ∧
    updateEntryEnv id queryEntry [("FOO", "bar")] ≠ queryEntry ∧
    (updateEntryEnv id (updateEntryEnv id queryEntry [("FOO", "bar")])
        [("FOO", "baz")]).createOptions =
      [("env", JVal.arr ["A=1", "FOO=bar", "FOO=baz"])] := by
  decide

/-- C6 (code bug): in the object literal building the container-creation
options the configured `createOptions` is spread after the generated
`name`, so a configured `name` key overwrites the generated instance
identifier instead of being ignored. -/
theorem c6_configured_name_overrides_generated :
    genNewInstanceName fixedNameEntry "u123" = "svc2_u123" ∧
    objGet (buildCreateOptions (genNewInstanceName fixedNameEntry "u123")
        fixedNameEntry.createOptions) "name" = some (JVal.str "fixed") ∧
    objGet (buildCreateOptions (genNewInstanceName fixedNameEntry "u123")
        fixedNameEntry.createOptions) "name" ≠
      some (JVal.str (genNewInstanceName fixedNameEntry "u123")) := by
  decide

/-- C7 counterexample: a configuration list with two otherwise-valid
entries sharing one key, but distinct names, passes `tryValidateConfig`
of src/app.js, although the claim requires validation to fail on it. -/
theorem c7_counterexample :
    dupKeyA.key = dupKeyB.key ∧ dupKeyA.name ≠ dupKeyB.name ∧
    tryValidateConfig [dupKeyA, dupKeyB] = Except.ok () :=
  ⟨by decide, by decide, rfl⟩

lemma validateEntry_ok_iff (e : ConfigEntry) :
    validateEntry e = Except.ok () ↔
      e.name ≠ "" ∧ e.key ≠ "" ∧ e.image ≠ "" := by
  unfold validateEntry
  by_cases h1 : e.name = "" <;> by_cases h2 : e.key = "" <;>
    by_cases h3 : e.image = "" <;> simp [h1, h2, h3]

lemma checkEntries_ok_iff (cfg : List ConfigEntry) :
    checkEntries cfg = Except.ok () ↔ ∀ e ∈ cfg, validateEntry e = Except.ok () := by
  induction cfg with
  | nil => simp [checkEntries]
  | cons c rest ih =>
    unfold checkEntries
    cases hv : validateEntry c with
    | error msg =>
      simp only [List.mem_cons]
      constructor
      · intro h; cases h
      · intro h
        have := h c (Or.inl rfl)
        rw [hv] at this
        cases this
    | ok u =>
      obtain ⟨⟩ := u
      simp only [List.mem_cons, ih]
      constructor
      · rintro h e (rfl | he)
        · exact hv
        · exact h e he
      · intro h e he
        exact h e (Or.inr he)

lemma dedup_length_eq_iff (l : List String) :
    l.dedup.length = l.length ↔ l.Nodup := by
  constructor
  · intro h
    have := List.Sublist.eq_of_length (List.dedup_sublist l) h
    rw [← this]
    exact List.nodup_dedup l
  · intro h
    rw [List.dedup_eq_self.mpr h]

lemma validator_ok_iff (cfg : List ConfigEntry) :
    tryValidateConfig cfg = Except.ok () ↔
      (∀ e ∈ cfg, e.name ≠ "" ∧ e.key ≠ "" ∧ e.image ≠ "") ∧
        (cfg.map ConfigEntry.name).Nodup := by
  unfold tryValidateConfig
  cases hc : checkEntries cfg with
  | error msg =>
    have : ¬ ∀ e ∈ cfg, validateEntry e = Except.ok () := by
      intro h
      rw [(checkEntries_ok_iff cfg).mpr h] at hc
      cases hc
    simp only []
    constructor
    · intro h; cases h
    · rintro ⟨hfields, -⟩
      exact absurd (fun e he => (validateEntry_ok_iff e).mpr (hfields e he)) this
  | ok u =>
    obtain ⟨⟩ := u
    have hfields : ∀ e ∈ cfg, e.name ≠ "" ∧ e.key ≠ "" ∧ e.image ≠ "" :=
      fun e he => (validateEntry_ok_iff e).mp ((checkEntries_ok_iff cfg).mp hc e he)
    by_cases hd : (cfg.map ConfigEntry.name).dedup.length = (cfg.map ConfigEntry.name).length
    · simp only [hd, ne_eq, not_true_eq_false, if_false]
      simp only [(dedup_length_eq_iff _).mp hd, and_true, true_iff]
      exact hfields
    · simp only [ne_eq, hd, not_false_eq_true, if_true]
      constructor
      · intro h; cases h
      · rintro ⟨-, hnodup⟩
        exact absurd ((dedup_length_eq_iff _).mpr hnodup) hd

lemma validatorV2_ok_iff (cfg : List ConfigEntry) :
    tryValidateConfigV2 cfg = Except.ok () ↔
      (∀ e ∈ cfg, e.name ≠ "" ∧ e.key ≠ "" ∧ e.image ≠ "") ∧
        (cfg.map ConfigEntry.name).Nodup ∧ (cfg.map ConfigEntry.key).Nodup := by
  unfold tryValidateConfigV2
  cases hc : checkEntries cfg with
  | error msg =>
    have : ¬ ∀ e ∈ cfg, validateEntry e = Except.ok () := by
      intro h
      rw [(checkEntries_ok_iff cfg).mpr h] at hc
      cases hc
    constructor
    · intro h; cases h
    · rintro ⟨hfields, -⟩
      exact absurd (fun e he => (validateEntry_ok_iff e).mpr (hfields e he)) this
  | ok u =>
    obtain ⟨⟩ := u
    have hfields : ∀ e ∈ cfg, e.name ≠ "" ∧ e.key ≠ "" ∧ e.image ≠ "" :=
      fun e he => (validateEntry_ok_iff e).mp ((checkEntries_ok_iff cfg).mp hc e he)
    by_cases hd : (cfg.map ConfigEntry.name).dedup.length = (cfg.map ConfigEntry.name).length
    · by_cases hk : (cfg.map ConfigEntry.key).dedup.length = (cfg.map ConfigEntry.key).length
      · simp only [hd, hk, ne_eq, not_true_eq_false, if_false]
        simp only [(dedup_length_eq_iff _).mp hd, (dedup_length_eq_iff _).mp hk,
          and_true, true_iff]
        exact hfields
      · simp only [hd, ne_eq, not_true_eq_false, if_false, hk, not_false_eq_true, if_true]
        constructor
        · intro h; cases h
        · rintro ⟨-, -, hnodup⟩
          exact absurd ((dedup_length_eq_iff _).mpr hnodup) hk
    · simp only [ne_eq, hd, not_false_eq_true, if_true]
      constructor
      · intro h; cases h
      · rintro ⟨-, hnodup, -⟩
        exact absurd ((dedup_length_eq_iff _).mpr hnodup) hd

/-- C7 amended: `tryValidateConfig` of src/app.js succeeds exactly when
every entry has a non-empty cleaned name, key and image and the cleaned
names are pairwise distinct — duplicate keys are not rejected there; the
validator of the second app.js variant additionally requires pairwise
distinct keys. -/
theorem c7_amended_validation_characterized (cfg : List ConfigEntry) :
    (tryValidateConfig cfg = Except.ok () ↔
      (∀ e ∈ cfg, e.name ≠ "" ∧ e.key ≠ "" ∧ e.image ≠ "") ∧
        (cfg.map ConfigEntry.name).Nodup) ∧
    (tryValidateConfigV2 cfg = Except.ok () ↔
      (∀ e ∈ cfg, e.name ≠ "" ∧ e.key ≠ "" ∧ e.image ≠ "") ∧
        (cfg.map ConfigEntry.name).Nodup ∧ (cfg.map ConfigEntry.key).Nodup) :=
  ⟨validator_ok_iff cfg, validatorV2_ok_iff cfg⟩

/-- C9: the derived environment list contains the entry
`NAME=decodedValue` for every allowlisted parameter present in the query,
contains nothing else, has exactly one element per allowlisted present
parameter, and on allowlist `["FOO"]` with query
`FOO = bar, BAZ = qux` it is exactly `["FOO=bar"]`. -/
theorem c9_extractAllowedQueryParams_allowlist (decode : String → String)
    (cfg : ConfigEntry) (query : List (String × String)) :
    (∀ k ∈ cfg.queryParamsToEnv, queryHas query k = true →
      (k ++ "=" ++ decode (queryGet query k)) ∈
        extractAllowedQueryParams decode cfg query) ∧
    (∀ s ∈ extractAllowedQueryParams decode cfg query,
      ∃ k ∈ cfg.queryParamsToEnv, queryHas query k = true ∧
        s = k ++ "=" ++ decode (queryGet query k)) ∧
    (extractAllowedQueryParams decode cfg query).length =
      (cfg.queryParamsToEnv.filter (fun k => queryHas query k)).length ∧
    extractAllowedQueryParams id { cfg with queryParamsToEnv := ["FOO"] }
      [("FOO", "bar"), ("BAZ", "qux")] = ["FOO=bar"] := by
  refine ⟨?_, ?_, ?_, rfl⟩
  · intro k hk hq
    exact List.mem_map_of_mem _ (List.mem_filter.mpr ⟨hk, hq⟩)
  · intro s hs
    obtain ⟨k, hk, rfl⟩ := List.mem_map.mp hs
    obtain ⟨hk1, hk2⟩ := List.mem_filter.mp hk
    exact ⟨k, hk1, hk2, rfl⟩
  · simp [extractAllowedQueryParams]

/-- C10: when the configured `limit` is absent or the falsy number 0, the
constructed entry has limit 1, and such an entry admits exactly one
concurrent instance: a first admission from the empty tracker succeeds
and a second is rejected. -/
theorem c10_falsy_limit_defaults_to_one (conf : RawConf)
    (h : conf.limit = none ∨ conf.limit = some 0) :
    (ConfigEntry.ofConf conf).limit = 1 ∧
    (tryTrackNewRunningInstance [] (ConfigEntry.ofConf conf) "i1").1 = true ∧
    (tryTrackNewRunningInstance
      (tryTrackNewRunningInstance [] (ConfigEntry.ofConf conf) "i1").2
      (ConfigEntry.ofConf conf) "i2").1 = false := by
  have hl : (ConfigEntry.ofConf conf).limit = 1 := by
    cases h with
    | inl h => simp [ConfigEntry.ofConf, h]
    | inr h => simp [ConfigEntry.ofConf, h]
  refine ⟨hl, ?_, ?_⟩
  · simp [tryTrackNewRunningInstance, mapFind]
  · simp [tryTrackNewRunningInstance, mapFind, mapSet, hl]

/-- Test fixture: a raw configuration object with no `limit` field. -/
def conf0 : RawConf where
  name := "svc4"
  key := "key4"
  image := "img4"
  queryParamsToEnv := none
  allowFrom := none
  cmd := none
  createOptions := none
  limit := none

/-- Witness for C10 at a concrete raw configuration without a `limit`. -/
theorem c10_witness :
    (ConfigEntry.ofConf conf0).limit = 1 ∧
    (tryTrackNewRunningInstance [] (ConfigEntry.ofConf conf0) "i1").1 = true ∧
    (tryTrackNewRunningInstance
      (tryTrackNewRunningInstance [] (ConfigEntry.ofConf conf0) "i1").2
      (ConfigEntry.ofConf conf0) "i2").1 = false :=
  c10_falsy_limit_defaults_to_one conf0 (Or.inl rfl)

end DockerKicker
